import Mathlib

/-!
Verification of the SKU generation engine (src/main.py).

The pure string core (`first_letters_of_words`, `first_n_letters`, `build_sku`)
is embedded as executable Lean functions over `String` (= packed `List Char`).
Python string primitives are modelled with structural recursion: `str.upper()`
maps each character to its full uppercase mapping, which may be several
characters (`upperChar`: basic-latin letters via `Char.toUpper`, the
length-changing Latin expansions such as eszett to `SS` explicitly),
`str.strip()` drops leading/trailing whitespace, `s[:n]` takes the first `n`
characters, and `str.ljust` right-pads.  The fallible first-character access
`str(size)[0]` (IndexError on the empty string) is modelled with `Option`.

The two Flask routes `create_data` and `generate_sku` are embedded as explicit
state-passing functions over a `Store` of per-user vocabulary rows and SKU
records, mirroring the SQLAlchemy `filter_by`/`add`/`first()` calls.
-/

namespace SKUGen

/-- Python `'_' * n`: a run of `n` pad characters. -/
def padStr (n : Nat) : String := ⟨List.replicate n '_'⟩

/-- Full uppercase mapping of one character, as CPython `str.upper()` applies
it per character: `a`-`z` map to `A`-`Z`, and the Latin-script special
casings that expand to several characters (eszett, the latin ligatures) are
listed explicitly — these are the mappings that change a string's length.
Every other character is mapped by `Char.toUpper`; the remaining non-ASCII
single-character case mappings (which never change the length) are thereby
approximated as the identity, a deviation the spec declares
implementation-defined and that no theorem below depends on. -/
def upperChar (c : Char) : List Char :=
  if c = 'ß' then ['S', 'S']
  else if c = 'ﬀ' then ['F', 'F']
  else if c = 'ﬁ' then ['F', 'I']
  else if c = 'ﬂ' then ['F', 'L']
  else if c = 'ﬃ' then ['F', 'F', 'I']
  else if c = 'ﬄ' then ['F', 'F', 'L']
  else if c = 'ﬅ' then ['S', 'T']
  else if c = 'ﬆ' then ['S', 'T']
  else [c.toUpper]

/-- Python `str.upper()`: concatenation of the characters' full uppercase
mappings.  May be longer than the input (e.g. on eszett). -/
def pyUpper (s : String) : String := ⟨(s.data.map upperChar).flatten⟩

/-- Python slicing `s[:n]` for a nonnegative bound. -/
def pyTake (s : String) (n : Nat) : String := ⟨s.data.take n⟩

/-- Python `s.ljust(n, '_')`: right-pad with underscores up to width `n`;
never truncates. -/
def ljust (s : String) (n : Nat) : String :=
  if s.length < n then ⟨s.data ++ List.replicate (n - s.length) '_'⟩ else s

/-- Drop leading whitespace characters of a character list. -/
def dropWs : List Char → List Char
  | [] => []
  | c :: cs => if c.isWhitespace then dropWs cs else c :: cs

/-- Python `s.strip()`: remove leading and trailing whitespace. -/
def pyStrip (s : String) : String := ⟨(dropWs (dropWs s.data).reverse).reverse⟩

/-- Helper for `pyWords`: scan the characters, `acc` holding the current
(reversed) run of non-whitespace characters. -/
def wordsAux : List Char → List Char → List String
  | [], acc => if acc.isEmpty then [] else [⟨acc.reverse⟩]
  | c :: cs, acc =>
    if c.isWhitespace then
      if acc.isEmpty then wordsAux cs [] else ⟨acc.reverse⟩ :: wordsAux cs []
    else wordsAux cs (c :: acc)

/-- The source's `[p for p in s.strip().split() if p]`: Python `str.split()`
with no separator yields exactly the maximal runs of non-whitespace
characters (never an empty token), so the preceding `strip()` and the
`if p` filter do not change the list; `pyWords` computes those runs. -/
def pyWords (s : String) : List String := wordsAux s.data []

/-- Python `''.join(l)`: concatenation of a list of strings. -/
def pyJoin : List String → String
  | [] => ""
  | s :: rest => s ++ pyJoin rest

/-- Source `first_letters_of_words` (src/main.py lines 72-90): for each of the
first `num_words` words of `s`, the first `letters_each` characters uppercased
and right-padded to `letters_each`; underscores for missing words; all-pad
output when `s` is the empty string. -/
def first_letters_of_words (s : String) (num_words : Nat) (letters_each : Nat) : String :=
  if s = "" then
    pyJoin ((List.range num_words).map (fun _ => padStr letters_each))
  else
    let parts := pyWords s
    pyJoin ((List.range num_words).map (fun i =>
      match parts[i]? with
      | some part => ljust (pyUpper (pyTake part letters_each)) letters_each
      | none => padStr letters_each))

/-- Source `first_n_letters` (src/main.py lines 92-102): first `n` characters
of the stripped, uppercased `s`, right-padded with underscores; `n` pads when
`s` is empty. -/
def first_n_letters (s : String) (n : Nat) : String :=
  if s = "" then padStr n
  else
    let t := pyUpper (pyStrip s)
    let out := pyTake t n
    if out.length < n then ljust out n else out

/-- Source line 119: `str(size)[0] if size is not None else '_'`.  Python
raises `IndexError` when `size` is the empty string; that failure is `none`. -/
def size_char? (size : Option String) : Option String :=
  match size with
  | none => some "_"
  | some sz =>
    match sz.data with
    | [] => none
    | c :: _ => some ⟨[c]⟩

/-- Source `build_sku` (src/main.py lines 104-129).  `none` models the
`IndexError` raised for an empty-string `size`. -/
def build_sku (product_type collection product_name color : String)
    (size : Option String) : Option String :=
  match size_char? size with
  | none => none
  | some size_char =>
    let pt := first_letters_of_words product_type 2 1
    let coll := first_letters_of_words collection 2 1
    let pname := first_n_letters product_name 3
    let col := first_letters_of_words color 2 1
    let sku_body := pt ++ coll ++ pname ++ col
    let sku_body :=
      if sku_body.length < 9 then ljust sku_body 9
      else if sku_body.length > 9 then pyTake sku_body 9
      else sku_body
    some (sku_body ++ size_char)

/-- The raw body of src/main.py line 121: the four encoded fields
concatenated.  Its expected width is 9, but a length-changing uppercase
expansion inside `first_letters_of_words` can make it longer. -/
def sku_body_raw (product_type collection product_name color : String) : String :=
  first_letters_of_words product_type 2 1 ++ first_letters_of_words collection 2 1 ++
    first_n_letters product_name 3 ++ first_letters_of_words color 2 1

/-- The defensively normalized body of src/main.py lines 122-126: right-pad
with underscores to 9 characters if shorter, truncate to the first 9
characters if longer. -/
def sku_body_norm (product_type collection product_name color : String) : String :=
  if (sku_body_raw product_type collection product_name color).length < 9 then
    ljust (sku_body_raw product_type collection product_name color) 9
  else if (sku_body_raw product_type collection product_name color).length > 9 then
    pyTake (sku_body_raw product_type collection product_name color) 9
  else sku_body_raw product_type collection product_name color

/-- Reference SKU composition, written from the specification's words (for the
refinement claim): concatenate `encode_words(productType,2,1)`,
`encode_words(collection,2,1)`, `encode_prefix(productName,3)`,
`encode_words(color,2,1)` into a body; right-pad the body with underscores to
9 characters if shorter, truncate to its first 9 characters if longer; append
the first character of the size value's textual representation, underscore
when the size is absent.  For a present but empty size the demanded first
character does not exist, modelled as `none`. -/
def compose_sku_ref (productType collection productName color : String)
    (size : Option String) : Option String :=
  let body :=
    first_letters_of_words productType 2 1 ++ first_letters_of_words collection 2 1 ++
      first_n_letters productName 3 ++ first_letters_of_words color 2 1
  let body9 :=
    if body.length < 9 then ljust body 9
    else if body.length > 9 then pyTake body 9
    else body
  match size with
  | none => some (body9 ++ "_")
  | some sz =>
    match sz.data with
    | [] => none
    | c :: _ => some (body9 ++ ⟨[c]⟩)

/-- Mode A encoder as the specification words it: split the trimmed label on
whitespace discarding empty tokens; if the label is empty or has no words,
emit `wordCount` groups of `lettersEach` pad characters; otherwise per word
index the first `lettersEach` characters uppercased and right-padded, or a
pad group when the word does not exist. -/
def encodeWordsSpec (label : String) (wordCount lettersEach : Nat) : String :=
  let words := pyWords label
  if words.isEmpty then
    pyJoin (List.replicate wordCount (padStr lettersEach))
  else
    pyJoin ((List.range wordCount).map (fun i =>
      match words[i]? with
      | some w => ljust (pyUpper (pyTake w lettersEach)) lettersEach
      | none => padStr lettersEach))

/-! ### Data model and route handlers -/

/-- A vocabulary row (`ProductType`, `Collection`, `Color` of src/main.py):
integer primary key, label text, owning user's id. -/
structure VocabEntry where
  id : Int
  name : String
  userId : Nat
deriving DecidableEq

/-- A generated SKU row (`SKURecord` of src/main.py): primary key, code, the
free-typed product name, owning user's id. -/
structure SKURecordRow where
  id : Int
  sku : String
  productName : String
  userId : Nat
deriving DecidableEq

/-- The persisted state: the three vocabulary tables and the SKU records. -/
structure Store where
  productTypes : List VocabEntry
  collections : List VocabEntry
  colors : List VocabEntry
  skuRecords : List SKURecordRow
deriving DecidableEq

/-- Autoincrementing primary key: one more than the largest id in use. -/
def freshId (ids : List Int) : Int := ids.foldr max 0 + 1

/-- Value of a digit run; `none` as soon as a non-digit occurs. -/
def digitsVal (acc : Nat) : List Char → Option Nat
  | [] => some acc
  | c :: cs => if c.isDigit then digitsVal (acc * 10 + (c.toNat - 48)) cs else none

/-- Python `int(s)` on a form string, `ValueError` as `none`: optional sign
followed by at least one digit, surrounding whitespace ignored.  (Python
additionally accepts digit-grouping underscores; form ids never carry them
and the claims only distinguish parse success from failure.) -/
def pyInt? (s : String) : Option Int :=
  match (pyStrip s).data with
  | [] => none
  | '-' :: rest =>
    match rest with
    | [] => none
    | _ => (digitsVal 0 rest).map (fun n => -(n : Int))
  | '+' :: rest =>
    match rest with
    | [] => none
    | _ => (digitsVal 0 rest).map (fun n => (n : Int))
  | cs => (digitsVal 0 cs).map (fun n => (n : Int))

/-- The id-to-row resolution of the generate-sku route (src/main.py lines
232-250): a falsy (absent or empty) form id, an unparseable id
(`ValueError`), a missing row, and a row owned by a different user all
resolve to `none`. -/
def lookupEntry (entries : List VocabEntry) (rawId : Option String) (u : Nat) :
    Option VocabEntry :=
  match rawId with
  | none => none
  | some r =>
    if r = "" then none
    else
      match pyInt? r with
      | none => none
      | some i => (entries.filter (fun e => e.id == i && e.userId == u)).head?

/-- `x.name if x else ''` of src/main.py lines 252-254. -/
def resolvedName (entries : List VocabEntry) (rawId : Option String) (u : Nat) : String :=
  match lookupEntry entries rawId u with
  | some e => e.name
  | none => ""

/-- Outcome of a create-data POST (flash messages elided): the empty-value
re-prompt, the unknown-category rejection, or a successful insert. -/
inductive CreateOutcome where
  | rejectedEmpty
  | unknownType
  | added
deriving DecidableEq

/-- A create-data POST request: authenticated user plus the `what` and
`value` form fields (an absent field is `none`; `value` defaults to `""`). -/
structure CreateRequest where
  userId : Nat
  what : Option String
  value : Option String
deriving DecidableEq

/-- The `create_data` POST handler (src/main.py lines 180-198). -/
def create_data (st : Store) (rq : CreateRequest) : Store × CreateOutcome :=
  let value := pyStrip (rq.value.getD "")
  if value = "" then (st, .rejectedEmpty)
  else if rq.what = some "product_type" then
    ({ st with productTypes :=
        st.productTypes ++
          [⟨freshId (st.productTypes.map (fun e => e.id)), value, rq.userId⟩] },
      .added)
  else if rq.what = some "collection" then
    ({ st with collections :=
        st.collections ++
          [⟨freshId (st.collections.map (fun e => e.id)), value, rq.userId⟩] },
      .added)
  else if rq.what = some "color" then
    ({ st with colors :=
        st.colors ++
          [⟨freshId (st.colors.map (fun e => e.id)), value, rq.userId⟩] },
      .added)
  else (st, .unknownType)

/-- Outcome of a generate-sku POST: the missing-product-name re-prompt, the
unhandled `IndexError` (HTTP 500) raised for an empty-string size, or a
successful generation. -/
inductive GenOutcome where
  | validationRejected
  | serverError
  | generated (sku : String)
deriving DecidableEq

/-- A generate-sku POST request: authenticated user and the raw form
fields. -/
structure GenRequest where
  userId : Nat
  productName : Option String
  ptypeId : Option String
  collId : Option String
  colorId : Option String
  size : Option String
deriving DecidableEq

/-- The `generate_sku` POST handler (src/main.py lines 220-262). -/
def generate_sku (st : Store) (rq : GenRequest) : Store × GenOutcome :=
  let pname := pyStrip (rq.productName.getD "")
  if pname = "" then (st, .validationRejected)
  else
    let ptype_text := resolvedName st.productTypes rq.ptypeId rq.userId
    let coll_text := resolvedName st.collections rq.collId rq.userId
    let color_text := resolvedName st.colors rq.colorId rq.userId
    match build_sku ptype_text coll_text pname color_text rq.size with
    | none => (st, .serverError)
    | some sku =>
      ({ st with skuRecords :=
          st.skuRecords ++
            [⟨freshId (st.skuRecords.map (fun r => r.id)), sku, pname, rq.userId⟩] },
        .generated sku)

/-- `filter_by(user_id=u)` on a vocabulary table (src/main.py lines 201-203
and 215-217). -/
def listVocabulary (entries : List VocabEntry) (u : Nat) : List VocabEntry :=
  entries.filter (fun e => e.userId == u)

/-- Insert a record into a list already sorted by descending id. -/
def insertDesc (r : SKURecordRow) : List SKURecordRow → List SKURecordRow
  | [] => [r]
  | x :: xs => if x.id ≤ r.id then r :: x :: xs else x :: insertDesc r xs

/-- Sort records by descending id (`order_by(SKURecord.id.desc())`). -/
def sortDesc : List SKURecordRow → List SKURecordRow
  | [] => []
  | x :: xs => insertDesc x (sortDesc xs)

/-- The recent-SKU query of src/main.py line 204: filter by owning user,
order by descending id, limit 10. -/
def listRecent (st : Store) (u : Nat) : List SKURecordRow :=
  (sortDesc (st.skuRecords.filter (fun r => r.userId == u))).take 10

/-! ### Helper lemmas about the string primitives -/

theorem data_length (s : String) : s.data.length = s.length := rfl

theorem padStr_length (n : Nat) : (padStr n).length = n := by
  simp [padStr]

theorem char_isLower_iff (x : Char) : x.isLower = true ↔ 97 ≤ x.toNat ∧ x.toNat ≤ 122 := by
  simp [Char.isLower, UInt32.le_def, BitVec.le_def, Char.toNat, UInt32.toNat]

theorem toUpper_isLower_eq_false (c : Char) : (Char.toUpper c).isLower = false := by
  rw [Char.toUpper]
  by_cases h : c.toNat ≥ 97 ∧ c.toNat ≤ 122
  · rw [if_pos h]
    have hv : (c.toNat - 32).isValidChar := Or.inl (by omega)
    rw [Char.ofNat, dif_pos hv]
    have htn : (Char.ofNatAux (c.toNat - 32) hv).toNat = c.toNat - 32 := rfl
    rw [Bool.eq_false_iff]
    intro hl
    have h2 := (char_isLower_iff _).mp hl
    rw [htn] at h2
    omega
  · rw [if_neg h]
    rw [Bool.eq_false_iff]
    intro hl
    exact h ((char_isLower_iff c).mp hl)

theorem upperChar_of_ascii (c : Char) (hc : c.toNat < 128) :
    upperChar c = [c.toUpper] := by
  unfold upperChar
  split_ifs with h1 h2 h3 h4 h5 h6 h7 h8
  · exact absurd (h1 ▸ hc) (by decide)
  · exact absurd (h2 ▸ hc) (by decide)
  · exact absurd (h3 ▸ hc) (by decide)
  · exact absurd (h4 ▸ hc) (by decide)
  · exact absurd (h5 ▸ hc) (by decide)
  · exact absurd (h6 ▸ hc) (by decide)
  · exact absurd (h7 ▸ hc) (by decide)
  · exact absurd (h8 ▸ hc) (by decide)
  · rfl

theorem upperChar_not_lower (d c : Char) (h : c ∈ upperChar d) :
    c.isLower = false := by
  unfold upperChar at h
  split_ifs at h
  case _ => fin_cases h <;> decide
  case _ => fin_cases h <;> decide
  case _ => fin_cases h <;> decide
  case _ => fin_cases h <;> decide
  case _ => fin_cases h <;> decide
  case _ => fin_cases h <;> decide
  case _ => fin_cases h <;> decide
  case _ => fin_cases h <;> decide
  case _ =>
    rcases List.mem_singleton.mp h with rfl
    exact toUpper_isLower_eq_false d

theorem mem_pyUpper_data (x : String) (c : Char) (h : c ∈ (pyUpper x).data) :
    ∃ d ∈ x.data, c ∈ upperChar d := by
  unfold pyUpper at h
  obtain ⟨l, hl, hc⟩ := List.mem_flatten.mp h
  obtain ⟨d, hd, rfl⟩ := List.mem_map.mp hl
  exact ⟨d, hd, hc⟩

theorem flatten_map_upperChar_length (d : List Char)
    (h : ∀ c ∈ d, (upperChar c).length = 1) :
    ((d.map upperChar).flatten).length = d.length := by
  induction d with
  | nil => rfl
  | cons x xs ih =>
    have h1 := h x (List.mem_cons_self x xs)
    have h2 := ih (fun c hc => h c (List.mem_cons_of_mem x hc))
    rw [List.map_cons, List.flatten_cons, List.length_append, h1, h2,
      List.length_cons]
    omega

theorem pyUpper_length_of_ascii (x : String) (h : ∀ c ∈ x.data, c.toNat < 128) :
    (pyUpper x).length = x.length := by
  show ((x.data.map upperChar).flatten).length = x.data.length
  exact flatten_map_upperChar_length x.data
    (fun c hc => by rw [upperChar_of_ascii c (h c hc)]; rfl)

theorem pyTake_length (s : String) (n : Nat) : (pyTake s n).length = min n s.length := by
  simp [pyTake, data_length]

theorem ljust_length (s : String) (n : Nat) : (ljust s n).length = max s.length n := by
  unfold ljust
  by_cases h : s.length < n
  · rw [if_pos h]
    simp [data_length]
    omega
  · rw [if_neg h]
    omega

theorem group_length_ge (w : String) (le : Nat) :
    le ≤ (ljust (pyUpper (pyTake w le)) le).length := by
  rw [ljust_length]
  exact Nat.le_max_right _ _

theorem group_length_of_ascii (w : String) (le : Nat)
    (h : ∀ c ∈ w.data, c.toNat < 128) :
    (ljust (pyUpper (pyTake w le)) le).length = le := by
  rw [ljust_length, pyUpper_length_of_ascii (pyTake w le)
    (fun c hc => h c (List.take_subset _ _ hc)), pyTake_length]
  exact Nat.max_eq_right (Nat.min_le_left _ _)

theorem pyJoin_length_const (l : List String) (k : Nat)
    (h : ∀ x ∈ l, x.length = k) : (pyJoin l).length = l.length * k := by
  induction l with
  | nil => simp [pyJoin]
  | cons x xs ih =>
    have hx := h x (List.mem_cons_self x xs)
    have hxs := ih (fun y hy => h y (List.mem_cons_of_mem x hy))
    simp [pyJoin, hx, hxs, Nat.succ_mul]
    omega

theorem range_map_const {α : Type} (n : Nat) (x : α) :
    (List.range n).map (fun _ => x) = List.replicate n x := by
  induction n with
  | zero => rfl
  | succ m ih => simp [List.range_succ, List.replicate_succ' m x, ih]

theorem pyJoin_length_ge (l : List String) (k : Nat)
    (h : ∀ x ∈ l, k ≤ x.length) : l.length * k ≤ (pyJoin l).length := by
  induction l with
  | nil => simp [pyJoin]
  | cons x xs ih =>
    have hx := h x (List.mem_cons_self x xs)
    have hxs := ih (fun y hy => h y (List.mem_cons_of_mem x hy))
    have he : (pyJoin (x :: xs)).length = x.length + (pyJoin xs).length :=
      String.length_append x (pyJoin xs)
    rw [he, List.length_cons, Nat.succ_mul]
    omega

theorem wordsAux_chars (l : List Char) : ∀ (acc : List Char) (w : String),
    w ∈ wordsAux l acc → ∀ c ∈ w.data, c ∈ l ∨ c ∈ acc := by
  induction l with
  | nil =>
    intro acc w hw c hc
    unfold wordsAux at hw
    by_cases ha : acc.isEmpty
    · rw [if_pos ha] at hw
      cases hw
    · rw [if_neg ha] at hw
      rcases List.mem_singleton.mp hw with rfl
      exact Or.inr (List.mem_reverse.mp hc)
  | cons x xs ih =>
    intro acc w hw c hc
    unfold wordsAux at hw
    by_cases hx : x.isWhitespace
    · rw [if_pos hx] at hw
      by_cases ha : acc.isEmpty
      · rw [if_pos ha] at hw
        rcases ih [] w hw c hc with h | h
        · exact Or.inl (List.mem_cons_of_mem x h)
        · cases h
      · rw [if_neg ha] at hw
        rcases List.mem_cons.mp hw with rfl | hw2
        · exact Or.inr (List.mem_reverse.mp hc)
        · rcases ih [] w hw2 c hc with h | h
          · exact Or.inl (List.mem_cons_of_mem x h)
          · cases h
    · rw [if_neg hx] at hw
      rcases ih (x :: acc) w hw c hc with h | h
      · exact Or.inl (List.mem_cons_of_mem x h)
      · rcases List.mem_cons.mp h with rfl | h2
        · exact Or.inl (List.mem_cons_self _ _)
        · exact Or.inr h2

theorem pyWords_chars (s : String) (w : String) (hw : w ∈ pyWords s)
    (c : Char) (hc : c ∈ w.data) : c ∈ s.data := by
  rcases wordsAux_chars s.data [] w hw c hc with h | h
  · exact h
  · cases h

theorem first_letters_of_words_length_ge (s : String) (wc le : Nat) :
    wc * le ≤ (first_letters_of_words s wc le).length := by
  unfold first_letters_of_words
  by_cases h : s = ""
  · rw [if_pos h]
    have hc := pyJoin_length_const ((List.range wc).map fun _ => padStr le) le
      (fun x hx => by
        obtain ⟨i, _, rfl⟩ := List.mem_map.mp hx
        exact padStr_length le)
    rw [hc, List.length_map, List.length_range]
  · rw [if_neg h]
    dsimp only
    have hge := pyJoin_length_ge ((List.range wc).map fun i =>
        match (pyWords s)[i]? with
        | some part => ljust (pyUpper (pyTake part le)) le
        | none => padStr le) le
      (fun x hx => by
        obtain ⟨i, _, rfl⟩ := List.mem_map.mp hx
        cases hp : (pyWords s)[i]? with
        | none => exact Nat.le_of_eq (padStr_length le).symm
        | some part => exact group_length_ge part le)
    rw [List.length_map, List.length_range] at hge
    exact hge

theorem first_letters_of_words_length_of_ascii (s : String) (wc le : Nat)
    (h : ∀ c ∈ s.data, c.toNat < 128) :
    (first_letters_of_words s wc le).length = wc * le := by
  unfold first_letters_of_words
  by_cases hs : s = ""
  · rw [if_pos hs]
    rw [pyJoin_length_const _ le, List.length_map, List.length_range]
    intro x hx
    obtain ⟨i, _, rfl⟩ := List.mem_map.mp hx
    exact padStr_length le
  · rw [if_neg hs]
    rw [pyJoin_length_const _ le, List.length_map, List.length_range]
    intro x hx
    obtain ⟨i, _, rfl⟩ := List.mem_map.mp hx
    cases hp : (pyWords s)[i]? with
    | none => exact padStr_length le
    | some part =>
      exact group_length_of_ascii part le
        (fun c hc => h c (pyWords_chars s part (List.getElem?_mem hp) c hc))

theorem first_n_letters_length (s : String) (n : Nat) :
    (first_n_letters s n).length = n := by
  unfold first_n_letters
  by_cases h : s = ""
  · rw [if_pos h, padStr_length]
  · rw [if_neg h]
    have ht : (pyTake (pyUpper (pyStrip s)) n).length ≤ n := by
      rw [pyTake_length]; omega
    by_cases hlt : (pyTake (pyUpper (pyStrip s)) n).length < n
    · rw [if_pos hlt, ljust_length]
      omega
    · rw [if_neg hlt]
      omega

theorem size_char?_length (size : Option String) (sc : String)
    (h : size_char? size = some sc) : sc.length = 1 := by
  cases size with
  | none =>
    simp [size_char?] at h
    rw [h.symm]
    rfl
  | some sz =>
    obtain ⟨d⟩ := sz
    cases d with
    | nil => simp [size_char?] at h
    | cons c rest =>
      simp [size_char?] at h
      rw [h.symm]
      rfl

theorem size_char?_eq_none_iff (size : Option String) :
    size_char? size = none ↔ size = some "" := by
  cases size with
  | none => simp [size_char?]
  | some sz =>
    obtain ⟨d⟩ := sz
    cases d with
    | nil =>
      simp [size_char?]
    | cons c rest =>
      simp [size_char?]
      intro hsz
      exact absurd (congrArg String.data hsz) (by simp)

theorem mem_pyJoin_data (l : List String) (c : Char) (h : c ∈ (pyJoin l).data) :
    ∃ x ∈ l, c ∈ x.data := by
  induction l with
  | nil =>
    have he : (pyJoin []).data = [] := rfl
    rw [he] at h
    cases h
  | cons x xs ih =>
    have he : (pyJoin (x :: xs)).data = x.data ++ (pyJoin xs).data := rfl
    rw [he, List.mem_append] at h
    cases h with
    | inl hx => exact ⟨x, List.mem_cons_self x xs, hx⟩
    | inr hr =>
      obtain ⟨y, hy, hc⟩ := ih hr
      exact ⟨y, List.mem_cons_of_mem x hy, hc⟩

theorem padStr_chars (n : Nat) (c : Char) (h : c ∈ (padStr n).data) : c = '_' :=
  List.eq_of_mem_replicate h

theorem group_chars (w : String) (le : Nat) (c : Char)
    (h : c ∈ (ljust (pyUpper (pyTake w le)) le).data) :
    c = '_' ∨ c.isLower = false := by
  unfold ljust at h
  by_cases hl : (pyUpper (pyTake w le)).length < le
  · rw [if_pos hl] at h
    have he : (String.mk ((pyUpper (pyTake w le)).data ++
        List.replicate (le - (pyUpper (pyTake w le)).length) '_')).data =
        (pyUpper (pyTake w le)).data ++
          List.replicate (le - (pyUpper (pyTake w le)).length) '_' := rfl
    rw [he, List.mem_append] at h
    cases h with
    | inl hu =>
      obtain ⟨d, _, hcu⟩ := mem_pyUpper_data _ c hu
      exact Or.inr (upperChar_not_lower d c hcu)
    | inr hp => exact Or.inl (List.eq_of_mem_replicate hp)
  · rw [if_neg hl] at h
    obtain ⟨d, _, hcu⟩ := mem_pyUpper_data _ c h
    exact Or.inr (upperChar_not_lower d c hcu)

theorem first_letters_of_words_chars (s : String) (wc le : Nat) (c : Char)
    (h : c ∈ (first_letters_of_words s wc le).data) :
    c = '_' ∨ c.isLower = false := by
  unfold first_letters_of_words at h
  by_cases hs : s = ""
  · rw [if_pos hs] at h
    obtain ⟨x, hx, hc⟩ := mem_pyJoin_data _ _ h
    obtain ⟨i, _, rfl⟩ := List.mem_map.mp hx
    exact Or.inl (padStr_chars _ _ hc)
  · rw [if_neg hs] at h
    obtain ⟨x, hx, hc⟩ := mem_pyJoin_data _ _ h
    obtain ⟨i, _, rfl⟩ := List.mem_map.mp hx
    cases hp : (pyWords s)[i]? with
    | none =>
      rw [hp] at hc
      exact Or.inl (padStr_chars _ _ hc)
    | some part =>
      rw [hp] at hc
      exact group_chars _ _ _ hc

theorem pyJoin_replicate_empty (n : Nat) : pyJoin (List.replicate n "") = "" := by
  induction n with
  | zero => rfl
  | succ m ih =>
    rw [List.replicate_succ]
    show ("" : String) ++ pyJoin (List.replicate m "") = ""
    rw [String.empty_append, ih]

theorem ljust_of_length_zero (s : String) (n : Nat) (h : s.length = 0) :
    ljust s n = padStr n := by
  have hd : s.data = [] := by
    have h2 := data_length s
    rw [h] at h2
    exact List.length_eq_zero.mp h2
  obtain ⟨d⟩ := s
  cases hd
  unfold ljust
  by_cases hn : (String.mk ([] : List Char)).length < n
  · rw [if_pos hn]
    simp [padStr]
  · rw [if_neg hn]
    have hz : n = 0 := by
      have : (String.mk ([] : List Char)).length = 0 := rfl
      omega
    rw [hz]
    rfl

theorem sku_body_norm_length (pt coll pn col : String) :
    (sku_body_norm pt coll pn col).length = 9 := by
  unfold sku_body_norm
  by_cases h1 : (sku_body_raw pt coll pn col).length < 9
  · rw [if_pos h1, ljust_length]
    omega
  · rw [if_neg h1]
    by_cases h2 : (sku_body_raw pt coll pn col).length > 9
    · rw [if_pos h2, pyTake_length]
      omega
    · rw [if_neg h2]
      omega

theorem build_sku_eq_some (pt coll pn col : String) (size : Option String) (sc : String)
    (h : size_char? size = some sc) :
    build_sku pt coll pn col size = some (sku_body_norm pt coll pn col ++ sc) := by
  unfold build_sku
  rw [h]
  unfold sku_body_norm sku_body_raw
  rfl

theorem size_char?_ne_none (size : Option String) (h : size ≠ some "") :
    ∃ sc, size_char? size = some sc := by
  cases hs : size_char? size with
  | none => exact absurd ((size_char?_eq_none_iff size).mp hs) h
  | some sc => exact ⟨sc, rfl⟩

theorem mem_insertDesc (r a : SKURecordRow) (l : List SKURecordRow)
    (h : a ∈ insertDesc r l) : a = r ∨ a ∈ l := by
  induction l with
  | nil =>
    unfold insertDesc at h
    rcases List.mem_singleton.mp h with rfl
    exact Or.inl rfl
  | cons x xs ih =>
    unfold insertDesc at h
    by_cases hc : x.id ≤ r.id
    · rw [if_pos hc] at h
      rcases List.mem_cons.mp h with rfl | hx
      · exact Or.inl rfl
      · exact Or.inr hx
    · rw [if_neg hc] at h
      rcases List.mem_cons.mp h with rfl | hx
      · exact Or.inr (List.mem_cons_self _ _)
      · rcases ih hx with rfl | hx2
        · exact Or.inl rfl
        · exact Or.inr (List.mem_cons_of_mem _ hx2)

theorem mem_sortDesc (a : SKURecordRow) (l : List SKURecordRow)
    (h : a ∈ sortDesc l) : a ∈ l := by
  induction l with
  | nil => exact h
  | cons x xs ih =>
    unfold sortDesc at h
    rcases mem_insertDesc x a (sortDesc xs) h with rfl | hx
    · exact List.mem_cons_self _ _
    · exact List.mem_cons_of_mem _ (ih hx)

theorem mem_listRecent (st : Store) (u : Nat) (r : SKURecordRow)
    (h : r ∈ listRecent st u) : r ∈ st.skuRecords ∧ r.userId = u := by
  unfold listRecent at h
  have h2 := mem_sortDesc r _ (List.take_subset _ _ h)
  have h3 := List.mem_filter.mp h2
  exact ⟨h3.1, by simpa using h3.2⟩

theorem mem_listVocabulary (entries : List VocabEntry) (u : Nat) (e : VocabEntry)
    (h : e ∈ listVocabulary entries u) : e ∈ entries ∧ e.userId = u := by
  have h2 := List.mem_filter.mp h
  exact ⟨h2.1, by simpa using h2.2⟩

theorem generate_sku_records (st : Store) (rq : GenRequest) :
    (generate_sku st rq).1.skuRecords = st.skuRecords ∨
      ∃ rec, (generate_sku st rq).1.skuRecords = st.skuRecords ++ [rec] ∧
        rec.userId = rq.userId := by
  unfold generate_sku
  dsimp only
  by_cases hp : pyStrip (rq.productName.getD "") = ""
  · rw [if_pos hp]
    exact Or.inl rfl
  · rw [if_neg hp]
    cases hb : build_sku (resolvedName st.productTypes rq.ptypeId rq.userId)
        (resolvedName st.collections rq.collId rq.userId)
        (pyStrip (rq.productName.getD ""))
        (resolvedName st.colors rq.colorId rq.userId) rq.size with
    | none => exact Or.inl rfl
    | some sku => exact Or.inr ⟨_, rfl, rfl⟩

theorem create_data_tables (st : Store) (rq : CreateRequest) :
    ((create_data st rq).1.productTypes = st.productTypes ∨
      ∃ en, (create_data st rq).1.productTypes = st.productTypes ++ [en] ∧
        en.userId = rq.userId) ∧
    ((create_data st rq).1.collections = st.collections ∨
      ∃ en, (create_data st rq).1.collections = st.collections ++ [en] ∧
        en.userId = rq.userId) ∧
    ((create_data st rq).1.colors = st.colors ∨
      ∃ en, (create_data st rq).1.colors = st.colors ++ [en] ∧
        en.userId = rq.userId) := by
  unfold create_data
  dsimp only
  by_cases hv : pyStrip (rq.value.getD "") = ""
  · rw [if_pos hv]
    exact ⟨Or.inl rfl, Or.inl rfl, Or.inl rfl⟩
  · rw [if_neg hv]
    by_cases h1 : rq.what = some "product_type"
    · rw [if_pos h1]
      exact ⟨Or.inr ⟨_, rfl, rfl⟩, Or.inl rfl, Or.inl rfl⟩
    · rw [if_neg h1]
      by_cases h2 : rq.what = some "collection"
      · rw [if_pos h2]
        exact ⟨Or.inl rfl, Or.inr ⟨_, rfl, rfl⟩, Or.inl rfl⟩
      · rw [if_neg h2]
        by_cases h3 : rq.what = some "color"
        · rw [if_pos h3]
          exact ⟨Or.inl rfl, Or.inl rfl, Or.inr ⟨_, rfl, rfl⟩⟩
        · rw [if_neg h3]
          exact ⟨Or.inl rfl, Or.inl rfl, Or.inl rfl⟩

/-! ### Claim theorems -/

/-- C1: for every productType, collection, productName, color and optional
size, `build_sku` equals the reference composition `compose_sku_ref`
(concatenate the four encoded fields, normalize the body to 9 characters,
append the size character, underscore when size is absent); in particular
`build_sku "Shirt" "Summer" "Polo" "Blue" (some "3") = some "S_S_POLB_3"`. -/
theorem claim1_build_sku_matches_reference :
    (∀ pt coll pn col size,
      build_sku pt coll pn col size = compose_sku_ref pt coll pn col size) ∧
    build_sku "Shirt" "Summer" "Polo" "Blue" (some "3") = some "S_S_POLB_3" := by
  constructor
  · intro pt coll pn col size
    cases size with
    | none => rfl
    | some sz =>
      obtain ⟨d⟩ := sz
      cases d with
      | nil => rfl
      | cons c rest => rfl
  · rfl

/-- C2 counterexample: the claim says `compose_sku` never fails for any
well-typed input, size being any string or absent; but for the present,
empty-string size the source evaluates `str(size)[0]`, which raises
`IndexError` — modelled as `none`. -/
theorem claim2_counterexample_empty_size_fails :
    build_sku "" "" "" "" (some "") = none := rfl

/-- C2 amended: `encode_words` and `encode_prefix` are total (they are plain
functions into `String` in this embedding, mirroring that no fallible
operation occurs in their source), and `build_sku` returns a result for every
input combination except exactly when size is present and equal to the empty
string, where the first-character access fails. -/
theorem claim2_amended_total_except_empty_size :
    ∀ pt coll pn col size,
      build_sku pt coll pn col size = none ↔ size = some "" := by
  intro pt coll pn col size
  unfold build_sku
  cases h : size_char? size with
  | none =>
    simp only []
    simp [(size_char?_eq_none_iff size).mp h]
  | some sc =>
    simp only []
    simp
    intro hsz
    rw [hsz] at h
    simp [size_char?] at h

/-- C3 counterexample: the claim quantifies over every input combination with
size a string or absent, but for the empty-string size no string is returned
at all (the source raises `IndexError`), so no 10-character result exists. -/
theorem claim3_counterexample_empty_size_no_output :
    build_sku "a" "b" "c" "d" (some "") = none := rfl

/-- C3 amended: whenever `build_sku` returns a string (size absent or
non-empty), that string has length exactly 10 and is the normalized
9-character body followed directly by the single size character, with no
separator. -/
theorem claim3_amended_length_ten :
    ∀ pt coll pn col size s, build_sku pt coll pn col size = some s →
      s.length = 10 ∧
      s = sku_body_norm pt coll pn col ++ (size_char? size).getD "" ∧
      (sku_body_norm pt coll pn col).length = 9 ∧
      ((size_char? size).getD "").length = 1 := by
  intro pt coll pn col size s h
  cases hsc : size_char? size with
  | none =>
    rw [build_sku, hsc] at h
    cases h
  | some sc =>
    rw [build_sku_eq_some pt coll pn col size sc hsc] at h
    have hs : s = sku_body_norm pt coll pn col ++ sc :=
      (Option.some.injEq _ _).mp h.symm
    have hb := sku_body_norm_length pt coll pn col
    have hc := size_char?_length size sc hsc
    refine ⟨?_, ?_, hb, ?_⟩
    · rw [hs, String.length_append, hb, hc]
    · exact hs
    · exact hc

/-- C3 witness: at the concrete full example the returned SKU has length
10. -/
theorem claim3_witness :
    build_sku "Shirt" "Summer" "Polo" "Blue" (some "3") = some "S_S_POLB_3" ∧
    ("S_S_POLB_3" : String).length = 10 :=
  ⟨rfl, (claim3_amended_length_ten "Shirt" "Summer" "Polo" "Blue" (some "3")
    "S_S_POLB_3" rfl).1⟩

/-- C4: for wordCount ≥ 1 and lettersEach ≥ 1, `first_letters_of_words`
follows the specified algorithm `encodeWordsSpec` (split the trimmed label on
whitespace discarding empty tokens, all-pad output when no words, per-index
uppercased truncated right-padded groups otherwise); in particular
`first_letters_of_words "Running Shoes" 2 1 = "RS"` and
`first_letters_of_words "Red" 2 1 = "R_"`. -/
theorem claim4_encode_words_algorithm :
    (∀ s wc le, 1 ≤ wc → 1 ≤ le →
      first_letters_of_words s wc le = encodeWordsSpec s wc le) ∧
    first_letters_of_words "Running Shoes" 2 1 = "RS" ∧
    first_letters_of_words "Red" 2 1 = "R_" := by
  refine ⟨?_, rfl, rfl⟩
  intro s wc le hwc hle
  unfold first_letters_of_words encodeWordsSpec
  dsimp only
  by_cases hs : s = ""
  · rw [if_pos hs, if_pos (show (pyWords s).isEmpty = true by rw [hs]; rfl)]
    rw [range_map_const]
  · rw [if_neg hs]
    cases hw : pyWords s with
    | nil =>
      rw [if_pos (show ([] : List String).isEmpty = true from rfl)]
      have hfun : (fun i => match ([] : List String)[i]? with
          | some part => ljust (pyUpper (pyTake part le)) le
          | none => padStr le) = (fun _ : Nat => padStr le) := by
        funext i
        rw [List.getElem?_nil]
      rw [hfun, range_map_const]
    | cons w ws =>
      rw [if_neg (show ¬((w :: ws : List String).isEmpty = true) by simp)]

/-- C4 witness: the algorithm equivalence at a concrete label. -/
theorem claim4_witness :
    first_letters_of_words "Ocean Blue" 2 1 = encodeWordsSpec "Ocean Blue" 2 1 :=
  claim4_encode_words_algorithm.1 "Ocean Blue" 2 1 (by decide) (by decide)

/-- C5 counterexample: two of the claim's demands fail.  Character class:
for the label `"1"` the output is `"1"`, whose character is a digit — neither
an uppercase character nor the pad.  Exact length (the claim covers
multi-byte content): for the eszett label the slice uppercases to two
characters, `first_letters_of_words "ß" 1 1 = "SS"` of length 2 ≠ 1 * 1. -/
theorem claim5_counterexample_digit_and_eszett :
    first_letters_of_words "1" 1 1 = "1" ∧
    ('1' : Char).isUpper = false ∧ ('1' : Char) ≠ '_' ∧
    first_letters_of_words "ß" 1 1 = "SS" ∧
    (first_letters_of_words "ß" 1 1).length ≠ 1 * 1 := by
  refine ⟨rfl, rfl, by decide, rfl, by decide⟩

/-- C5 amended: for wordCount ≥ 1 and lettersEach ≥ 1 the output of
`first_letters_of_words` has length at least wordCount * lettersEach, and
exactly wordCount * lettersEach for every ASCII label (more generally
whenever no taken character has a length-changing uppercase expansion); and
no character of the output is a lowercase letter: each is the pad character
or comes from an uppercase mapping (digits and other non-letters pass
through and need not be uppercase). -/
theorem claim5_amended_length_and_no_lowercase :
    ∀ s wc le, 1 ≤ wc → 1 ≤ le →
      wc * le ≤ (first_letters_of_words s wc le).length ∧
      ((∀ c ∈ s.data, c.toNat < 128) →
        (first_letters_of_words s wc le).length = wc * le) ∧
      ∀ c ∈ (first_letters_of_words s wc le).data, c = '_' ∨ c.isLower = false :=
  fun s wc le _ _ =>
    ⟨first_letters_of_words_length_ge s wc le,
     fun h => first_letters_of_words_length_of_ascii s wc le h,
     fun c hc => first_letters_of_words_chars s wc le c hc⟩

/-- C5 witness: the exact-length property at a concrete ASCII label. -/
theorem claim5_witness : (first_letters_of_words "Red" 2 1).length = 2 * 1 :=
  (claim5_amended_length_and_no_lowercase "Red" 2 1 (by decide) (by decide)).2.1
    (by decide)

/-- C6: for n ≥ 1, `first_n_letters` returns n pads when the label trims to
empty and otherwise the trimmed, uppercased label's first n characters
right-padded with underscores; the output length is always exactly n; in
particular `first_n_letters "ab" 3 = "AB_"` and
`first_n_letters "abcdef" 3 = "ABC"`. -/
theorem claim6_encode_prefix_algorithm :
    (∀ s n, 1 ≤ n →
      (pyStrip s = "" → first_n_letters s n = padStr n) ∧
      (pyStrip s ≠ "" →
        first_n_letters s n = ljust (pyTake (pyUpper (pyStrip s)) n) n) ∧
      (first_n_letters s n).length = n) ∧
    first_n_letters "ab" 3 = "AB_" ∧
    first_n_letters "abcdef" 3 = "ABC" := by
  refine ⟨?_, rfl, rfl⟩
  intro s n hn
  refine ⟨?_, ?_, first_n_letters_length s n⟩
  · intro he
    unfold first_n_letters
    by_cases hs : s = ""
    · rw [if_pos hs]
    · rw [if_neg hs]
      have h0 : (pyTake (pyUpper (pyStrip s)) n).length = 0 := by
        rw [he, pyTake_length]
        rw [show (pyUpper "").length = 0 from rfl]
        simp
      rw [if_pos (by omega)]
      exact ljust_of_length_zero _ n h0
  · intro _
    unfold first_n_letters
    by_cases hs : s = ""
    · exact absurd (show pyStrip s = "" by rw [hs]; rfl) (by assumption)
    · rw [if_neg hs]
      by_cases ho : (pyTake (pyUpper (pyStrip s)) n).length < n
      · rw [if_pos ho]
      · rw [if_neg ho]
        unfold ljust
        rw [if_neg ho]

/-- C6 witness: the fixed output length at a concrete label. -/
theorem claim6_witness : (first_n_letters "ab" 3).length = 3 :=
  (claim6_encode_prefix_algorithm.1 "ab" 3 (by decide)).2.2

/-- C10: width-zero policy parameters contribute zero characters: with
wordCount 0 or lettersEach 0, `first_letters_of_words` returns the empty
string for every label. -/
theorem claim10_zero_width_policy :
    (∀ s le, first_letters_of_words s 0 le = "") ∧
    (∀ s wc, first_letters_of_words s wc 0 = "") := by
  constructor
  · intro s le
    unfold first_letters_of_words
    dsimp only
    by_cases hs : s = ""
    · rw [if_pos hs]
      rfl
    · rw [if_neg hs]
      rfl
  · intro s wc
    unfold first_letters_of_words
    dsimp only
    by_cases hs : s = ""
    · rw [if_pos hs]
      have h0 : padStr 0 = "" := rfl
      rw [range_map_const, h0]
      exact pyJoin_replicate_empty wc
    · rw [if_neg hs]
      have hfun : (fun i => match (pyWords s)[i]? with
          | some part => ljust (pyUpper (pyTake part 0)) 0
          | none => padStr 0) = (fun _ : Nat => ("" : String)) := by
        funext i
        cases hp : (pyWords s)[i]? with
        | none => rfl
        | some part => rfl
      rw [hfun, range_map_const]
      exact pyJoin_replicate_empty wc

/-- C7 counterexample: the claim quantifies over every SKU generation
request with a bad vocabulary reference; but a request whose product name
is empty is rejected before any resolution, and no SKU record is stored
even though its product-type id is malformed. -/
theorem claim7_counterexample_empty_name_no_record :
    generate_sku ⟨[], [], [], []⟩ ⟨7, some "", some "abc", none, none, some "2"⟩ =
      (⟨[], [], [], []⟩, GenOutcome.validationRejected) := rfl

/-- C7 amended: provided the request's product name is non-empty after
trimming and its size field is not the empty string, a generation request
does not fail even when vocabulary ids fail to resolve: every field whose id
is absent, empty, malformed, nonexistent, or owned by another user reaches
the composer as the empty string, and exactly one new SKU record, owned by
the requesting user and carrying the composed code, is appended. -/
theorem claim7_amended_bad_reference_falls_back_to_empty :
    ∀ st rq, pyStrip (rq.productName.getD "") ≠ "" → rq.size ≠ some "" →
      (lookupEntry st.productTypes rq.ptypeId rq.userId = none →
        resolvedName st.productTypes rq.ptypeId rq.userId = "") ∧
      (lookupEntry st.collections rq.collId rq.userId = none →
        resolvedName st.collections rq.collId rq.userId = "") ∧
      (lookupEntry st.colors rq.colorId rq.userId = none →
        resolvedName st.colors rq.colorId rq.userId = "") ∧
      (generate_sku st rq).2 = GenOutcome.generated
        ((build_sku (resolvedName st.productTypes rq.ptypeId rq.userId)
          (resolvedName st.collections rq.collId rq.userId)
          (pyStrip (rq.productName.getD ""))
          (resolvedName st.colors rq.colorId rq.userId) rq.size).getD "") ∧
      (generate_sku st rq).1.skuRecords =
        st.skuRecords ++
          [⟨freshId (st.skuRecords.map (fun r => r.id)),
            (build_sku (resolvedName st.productTypes rq.ptypeId rq.userId)
              (resolvedName st.collections rq.collId rq.userId)
              (pyStrip (rq.productName.getD ""))
              (resolvedName st.colors rq.colorId rq.userId) rq.size).getD "",
            pyStrip (rq.productName.getD ""), rq.userId⟩] := by
  intro st rq hpn hsz
  obtain ⟨sc, hsc⟩ := size_char?_ne_none rq.size hsz
  have hbs := build_sku_eq_some (resolvedName st.productTypes rq.ptypeId rq.userId)
    (resolvedName st.collections rq.collId rq.userId)
    (pyStrip (rq.productName.getD ""))
    (resolvedName st.colors rq.colorId rq.userId) rq.size sc hsc
  refine ⟨?_, ?_, ?_, ?_, ?_⟩
  · intro hbad
    unfold resolvedName
    rw [hbad]
  · intro hbad
    unfold resolvedName
    rw [hbad]
  · intro hbad
    unfold resolvedName
    rw [hbad]
  · unfold generate_sku
    rw [if_neg hpn]
    dsimp only
    rw [hbs]
    rfl
  · unfold generate_sku
    rw [if_neg hpn]
    dsimp only
    rw [hbs]
    rfl

/-- C7 witness: a concrete request with a dangling product-type id still
stores exactly one record. -/
theorem claim7_witness :
    (generate_sku ⟨[], [⟨1, "Summer", 4⟩], [], []⟩
      ⟨4, some "Polo", some "99", some "1", none, some "3"⟩).1.skuRecords.length = 1 := by
  have h := claim7_amended_bad_reference_falls_back_to_empty
    ⟨[], [⟨1, "Summer", 4⟩], [], []⟩
    ⟨4, some "Polo", some "99", some "1", none, some "3"⟩
    (by decide) (by decide)
  rw [h.2.2.2.2]
  rfl

/-- C8: a vocabulary insert (what one of product_type, collection, color)
with a value that is empty after trimming is rejected with the re-prompt and
leaves the store unchanged; with a non-empty trimmed value a new entry
carrying that label and owned by the requesting user is appended to the
corresponding table, the other tables unchanged. -/
theorem claim8_vocabulary_insert_validation :
    ∀ st rq w, rq.what = some w →
      (w = "product_type" ∨ w = "collection" ∨ w = "color") →
      (pyStrip (rq.value.getD "") = "" →
        create_data st rq = (st, CreateOutcome.rejectedEmpty)) ∧
      (pyStrip (rq.value.getD "") ≠ "" →
        (create_data st rq).2 = CreateOutcome.added ∧
        (w = "product_type" →
          (create_data st rq).1.productTypes =
            st.productTypes ++
              [⟨freshId (st.productTypes.map (fun e => e.id)),
                pyStrip (rq.value.getD ""), rq.userId⟩] ∧
          (create_data st rq).1.collections = st.collections ∧
          (create_data st rq).1.colors = st.colors) ∧
        (w = "collection" →
          (create_data st rq).1.collections =
            st.collections ++
              [⟨freshId (st.collections.map (fun e => e.id)),
                pyStrip (rq.value.getD ""), rq.userId⟩] ∧
          (create_data st rq).1.productTypes = st.productTypes ∧
          (create_data st rq).1.colors = st.colors) ∧
        (w = "color" →
          (create_data st rq).1.colors =
            st.colors ++
              [⟨freshId (st.colors.map (fun e => e.id)),
                pyStrip (rq.value.getD ""), rq.userId⟩] ∧
          (create_data st rq).1.productTypes = st.productTypes ∧
          (create_data st rq).1.collections = st.collections)) := by
  intro st rq w hw hcat
  constructor
  · intro he
    unfold create_data
    dsimp only
    rw [if_pos he]
  · intro hne
    unfold create_data
    dsimp only
    rw [if_neg hne]
    rcases hcat with rfl | rfl | rfl
    · rw [hw]
      rw [if_pos rfl]
      refine ⟨rfl, fun _ => ⟨rfl, rfl, rfl⟩, fun h => absurd h (by decide), fun h => absurd h (by decide)⟩
    · rw [hw]
      rw [if_neg (by decide), if_pos rfl]
      refine ⟨rfl, fun h => absurd h (by decide), fun _ => ⟨rfl, rfl, rfl⟩, fun h => absurd h (by decide)⟩
    · rw [hw]
      rw [if_neg (by decide), if_neg (by decide), if_pos rfl]
      refine ⟨rfl, fun h => absurd h (by decide), fun h => absurd h (by decide), fun _ => ⟨rfl, rfl, rfl⟩⟩

/-- C8 witness: inserting the color " Red " for user 5 succeeds and appends
the trimmed entry. -/
theorem claim8_witness :
    (create_data ⟨[], [], [], []⟩ ⟨5, some "color", some " Red "⟩).2 =
      CreateOutcome.added := by
  have h := claim8_vocabulary_insert_validation ⟨[], [], [], []⟩
    ⟨5, some "color", some " Red "⟩ "color" rfl (Or.inr (Or.inr rfl))
  exact (h.2 (by decide)).1

/-- C9: for distinct users A and B and any store state, listRecent and
listVocabulary on behalf of A return only rows owned by A (hence never a row
owned by B); moreover after any request issued by B, the rows those queries
return to A are rows that already existed and are owned by A. -/
theorem claim9_user_scoping :
    ∀ st A B, A ≠ B →
      (∀ r ∈ listRecent st A, r.userId = A ∧ r.userId ≠ B) ∧
      (∀ e ∈ listVocabulary st.productTypes A, e.userId = A ∧ e.userId ≠ B) ∧
      (∀ e ∈ listVocabulary st.collections A, e.userId = A ∧ e.userId ≠ B) ∧
      (∀ e ∈ listVocabulary st.colors A, e.userId = A ∧ e.userId ≠ B) ∧
      (∀ rq : GenRequest, rq.userId = B →
        ∀ r ∈ listRecent (generate_sku st rq).1 A,
          r ∈ st.skuRecords ∧ r.userId = A) ∧
      (∀ rq : CreateRequest, rq.userId = B →
        (∀ e ∈ listVocabulary (create_data st rq).1.productTypes A,
          e ∈ st.productTypes ∧ e.userId = A) ∧
        (∀ e ∈ listVocabulary (create_data st rq).1.collections A,
          e ∈ st.collections ∧ e.userId = A) ∧
        (∀ e ∈ listVocabulary (create_data st rq).1.colors A,
          e ∈ st.colors ∧ e.userId = A)) := by
  intro st A B hab
  refine ⟨?_, ?_, ?_, ?_, ?_, ?_⟩
  · intro r hr
    have h := mem_listRecent st A r hr
    exact ⟨h.2, by rw [h.2]; exact hab⟩
  · intro e he
    have h := mem_listVocabulary _ A e he
    exact ⟨h.2, by rw [h.2]; exact hab⟩
  · intro e he
    have h := mem_listVocabulary _ A e he
    exact ⟨h.2, by rw [h.2]; exact hab⟩
  · intro e he
    have h := mem_listVocabulary _ A e he
    exact ⟨h.2, by rw [h.2]; exact hab⟩
  · intro rq hB r hr
    have h := mem_listRecent _ A r hr
    rcases generate_sku_records st rq with heq | ⟨rec, heq, hrec⟩
    · rw [heq] at h
      exact ⟨h.1, h.2⟩
    · rw [heq] at h
      rcases List.mem_append.mp h.1 with hold | hnew
      · exact ⟨hold, h.2⟩
      · rcases List.mem_singleton.mp hnew with rfl
        rw [hB] at hrec
        exact absurd (h.2.symm.trans hrec) hab
  · intro rq hB
    obtain ⟨hpt, hcl, hco⟩ := create_data_tables st rq
    refine ⟨?_, ?_, ?_⟩
    · intro e he
      have h := mem_listVocabulary _ A e he
      rcases hpt with heq | ⟨en, heq, hen⟩
      · rw [heq] at h
        exact ⟨h.1, h.2⟩
      · rw [heq] at h
        rcases List.mem_append.mp h.1 with hold | hnew
        · exact ⟨hold, h.2⟩
        · rcases List.mem_singleton.mp hnew with rfl
          rw [hB] at hen
          exact absurd h.2 (by rw [hen]; exact fun hc => hab hc.symm)
    · intro e he
      have h := mem_listVocabulary _ A e he
      rcases hcl with heq | ⟨en, heq, hen⟩
      · rw [heq] at h
        exact ⟨h.1, h.2⟩
      · rw [heq] at h
        rcases List.mem_append.mp h.1 with hold | hnew
        · exact ⟨hold, h.2⟩
        · rcases List.mem_singleton.mp hnew with rfl
          rw [hB] at hen
          exact absurd h.2 (by rw [hen]; exact fun hc => hab hc.symm)
    · intro e he
      have h := mem_listVocabulary _ A e he
      rcases hco with heq | ⟨en, heq, hen⟩
      · rw [heq] at h
        exact ⟨h.1, h.2⟩
      · rw [heq] at h
        rcases List.mem_append.mp h.1 with hold | hnew
        · exact ⟨hold, h.2⟩
        · rcases List.mem_singleton.mp hnew with rfl
          rw [hB] at hen
          exact absurd h.2 (by rw [hen]; exact fun hc => hab hc.symm)

/-- C9 witness: in a store holding rows of users 1 and 2, a record returned
to user 1 is owned by user 1 and not by user 2. -/
theorem claim9_witness :
    (⟨3, "S_S_POLB_3", "Polo", 1⟩ : SKURecordRow).userId = 1 ∧
    (⟨3, "S_S_POLB_3", "Polo", 1⟩ : SKURecordRow).userId ≠ 2 := by
  have h := claim9_user_scoping
    ⟨[], [], [], [⟨3, "S_S_POLB_3", "Polo", 1⟩, ⟨4, "X________1", "Y", 2⟩]⟩
    1 2 (by decide)
  exact h.1 ⟨3, "S_S_POLB_3", "Polo", 1⟩ (by decide)

end SKUGen
